import Mathlib

set_option maxRecDepth 20000

/-!
Shallow embedding of the nbiot SARA N211 modem driver (`src/nbiot/module.py`).

Byte strings (Python `bytes`, and the `str` values obtained from them by
`decode`, which is the identity on byte values for the ASCII data handled
here) are modelled as `List Nat` of byte values.  The serial input consumed
by one embedded operation is a finite list of lines, already split at the
line terminator the way `serial.read_until` yields them; exhausting the list
models the wall-clock timeout of the read loop.  Exceptions are modelled by
`Except` with an explicit failure kind; `pyError` stands for the interpreter
level errors (`IndexError`, `ValueError`) that the Python code can raise on
malformed data.
-/

deriving instance DecidableEq for Except

/-- Byte values of an ASCII string literal, used to write concrete lines. -/
def bstr (s : String) : List Nat := s.data.map Char.toNat

/-- Python `line.startswith(pre)` on bytes. -/
def startsWithB : List Nat → List Nat → Bool
  | [], _ => true
  | _ :: _, [] => false
  | a :: as, b :: bs => a == b && startsWithB as bs

/-- Python `needle in line` on bytes: contiguous substring containment. -/
def hasSub (needle : List Nat) : List Nat → Bool
  | [] => startsWithB needle []
  | l@(_ :: rest) => startsWithB needle l || hasSub needle rest

/-- ASCII whitespace, as stripped by Python `lstrip` / `rstrip`. -/
def isWsp (b : Nat) : Bool := b == 32 || (decide (9 ≤ b) && decide (b ≤ 13))

/-- Python `lstrip()`. -/
def lstripB (l : List Nat) : List Nat := l.dropWhile isWsp

/-- Python `rstrip()`. -/
def rstripB (l : List Nat) : List Nat := (l.reverse.dropWhile isWsp).reverse

/-- Python `line.endswith(suf)` on bytes. -/
def endsWithB (suf l : List Nat) : Bool := startsWithB suf.reverse l.reverse

/-- `SaraN211Module._remove_line_ending`: drop one trailing CR-LF pair. -/
def removeLineEnding (line : List Nat) : List Nat :=
  if endsWithB (bstr "\r\n") line then line.dropLast.dropLast else line

/-- Python `bytes.split(sep)` for a one-byte separator. -/
def splitOnByte (c : Nat) : List Nat → List (List Nat)
  | [] => [[]]
  | b :: rest =>
    if b == c then [] :: splitOnByte c rest
    else
      match splitOnByte c rest with
      | [] => [[b]]
      | h :: t => (b :: h) :: t

/-- Fuel-driven helper for decimal rendering (fuel `n + 1` always suffices). -/
def natToDecAux : Nat → Nat → List Nat
  | 0, _ => []
  | fuel + 1, n =>
    if n < 10 then [48 + n] else natToDecAux fuel (n / 10) ++ [48 + n % 10]

/-- Decimal digits of a number, as Python f-string interpolation renders it. -/
def natToDec (n : Nat) : List Nat := natToDecAux (n + 1) n

/-- Upper-case hex digit byte for a value below 16. -/
def hexUpperDigit (n : Nat) : Nat := if n < 10 then 48 + n else 55 + n

/-- `binascii.hexlify(data).upper()`: two upper-case hex digits per byte,
as produced by `send_udp_data` (hexlify yields lower case, `upper()` maps
it to the upper-case digits produced directly here). -/
def hexlifyUpper (p : List Nat) : List Nat :=
  (p.map fun b => [hexUpperDigit (b / 16), hexUpperDigit (b % 16)]).flatten

/-- Value of one hex digit byte, upper or lower case. -/
def hexDigitVal (b : Nat) : Option Nat :=
  if 48 ≤ b ∧ b ≤ 57 then some (b - 48)
  else if 65 ≤ b ∧ b ≤ 70 then some (b - 55)
  else if 97 ≤ b ∧ b ≤ 102 then some (b - 87)
  else none

/-- `bytes.fromhex` on the byte values of a string: pairs of hex digits with
spaces allowed between pairs; `none` models the `ValueError` on malformed
input. -/
def fromhexBytes : List Nat → Option (List Nat)
  | [] => some []
  | b :: rest =>
    if b == 32 then fromhexBytes rest
    else
      match rest with
      | [] => none
      | l :: rest2 =>
        match hexDigitVal b, hexDigitVal l, fromhexBytes rest2 with
        | some hv, some lv, some r => some ((hv * 16 + lv) :: r)
        | _, _, _ => none

/-- Module State: the mutable fields set up by `SaraN211Module.__init__`.
String-valued fields hold byte/character values (`List Nat`); the twelve
radio-statistics fields are only ever defaulted by the operations modelled
here, so their numeric type is immaterial. -/
structure ModuleState where
  roaming : Bool
  echo : Bool
  ip : Option (List Nat)
  connected : Bool
  sockets : List (Nat × Option Nat)
  availableMessages : List (List Nat)
  imei : Option (List Nat)
  imsi : Option (List Nat)
  iccid : Option (List Nat)
  apn : Option (List Nat)
  registrationStatus : Nat
  radioSignalPower : Option Int
  radioTotalPower : Option Int
  radioTxPower : Option Int
  radioTxTime : Option Int
  radioRxTime : Option Int
  radioCellId : Option Int
  radioEcl : Option Int
  radioSnr : Option Int
  radioEarfcn : Option Int
  radioPci : Option Int
  radioRsrq : Option Int
  radioRsrp : Option Int
  deriving Repr, DecidableEq

/-- The field values `SaraN211Module.__init__` assigns. -/
def initState (roaming echo : Bool) : ModuleState where
  roaming := roaming
  echo := echo
  ip := none
  connected := false
  sockets := []
  availableMessages := []
  imei := none
  imsi := none
  iccid := none
  apn := none
  registrationStatus := 0
  radioSignalPower := none
  radioTotalPower := none
  radioTxPower := none
  radioTxTime := none
  radioRxTime := none
  radioCellId := none
  radioEcl := none
  radioSnr := none
  radioEarfcn := none
  radioPci := none
  radioRsrq := none
  radioRsrp := none

/-- `SaraN211Module._reset_after_reboot`: exactly the five assignments the
source performs. -/
def resetAfterReboot (s : ModuleState) : ModuleState :=
  { s with
    registrationStatus := 0
    connected := false
    ip := none
    sockets := []
    availableMessages := [] }

/-- `SaraN211Module.registered` property. -/
def registered (s : ModuleState) : Bool :=
  let registerCode := if s.roaming then 5 else 1
  s.registrationStatus == registerCode

/-- Failure kinds: wait-loop timeout (`ATTimeoutError`), error terminator
(`ATError`), `CMEError`, `PingError` with its message, and `pyError` for
interpreter-level `IndexError` / `ValueError` on malformed data. -/
inductive Failure where
  | timeout
  | atError (line : List Nat)
  | cmeError (line : List Nat)
  | pingError (msg : String)
  | pyError
  deriving Repr, DecidableEq

/-- `SaraN211Module._update_connection_status_callback`: the source computes
`bool(int(urc[-1]))` where `urc` is `bytes`, so the value is the truthiness
of the final byte value itself (48 for the character `0`), not of the digit
it spells. -/
def updateConnectionStatus (s : ModuleState) (urc : List Nat) : ModuleState :=
  { s with connected := urc.getLastD 0 != 0 }

/-- `SaraN211Module._update_eps_reg_status_callback`: `int(chr(urc[-1]))`,
a `ValueError` when the final byte is not a decimal digit. -/
def updateEpsRegStatus (s : ModuleState) (urc : List Nat) :
    Except Failure ModuleState :=
  let b := urc.getLastD 0
  if 48 ≤ b ∧ b ≤ 57 then .ok { s with registrationStatus := b - 48 }
  else .error .pyError

/-- `SaraN211Module._update_ip_address_callback`: the slice from just after
the first double quote up to (excluding) the final character. -/
def updateIpAddress (s : ModuleState) (urc : List Nat) : ModuleState :=
  let start := match urc.findIdx? (fun b => b == 34) with
    | some i => i + 1
    | none => 0
  { s with ip := some (urc.dropLast.drop start) }

/-- `SaraN211Module._update_apn_callback`: third comma-separated field with
double quotes removed; `IndexError` when fewer than three fields. -/
def updateApn (s : ModuleState) (urc : List Nat) : Except Failure ModuleState :=
  match (splitOnByte 44 urc).get? 2 with
  | some v => .ok { s with apn := some (v.filter fun b => b != 34) }
  | none => .error .pyError

/-- `SaraN211Module._update_imei_callback`: text after the first colon,
left-stripped; `IndexError` when there is no colon. -/
def updateImei (s : ModuleState) (urc : List Nat) : Except Failure ModuleState :=
  match (splitOnByte 58 urc).get? 1 with
  | some v => .ok { s with imei := some (lstripB v) }
  | none => .error .pyError

/-- `SaraN211Module._update_iccid_callback`: text after the first colon,
left-stripped; `IndexError` when there is no colon. -/
def updateIccid (s : ModuleState) (urc : List Nat) : Except Failure ModuleState :=
  match (splitOnByte 58 urc).get? 1 with
  | some v => .ok { s with iccid := some (lstripB v) }
  | none => .error .pyError

/-- `SaraN211Module._add_available_message_callback`: `urc.split(b":")` must
unpack into exactly two parts (`ValueError` otherwise); the left-stripped
second part is appended to the pending-message queue. -/
def addAvailableMessage (s : ModuleState) (urc : List Nat) :
    Except Failure ModuleState :=
  match splitOnByte 58 urc with
  | [_, d] =>
    .ok { s with availableMessages := s.availableMessages ++ [lstripB d] }
  | _ => .error .pyError

/-- `_urc[1:_urc.find(":")]`, the identifier the dispatcher switches on;
when there is no colon, Python `find` returns `-1` and the slice becomes
`_urc[1:-1]`. -/
def urcIdOf (urc : List Nat) : List Nat :=
  match urc.findIdx? (fun b => b == 58) with
  | some k => (urc.take k).drop 1
  | none => urc.dropLast.drop 1

/-- `SaraN211Module._process_urc`: dispatch on the identifier between `+`
and the first `:`.  `+CME ERROR` raises `CMEError`; unknown identifiers are
logged and ignored. -/
def processUrc (urc : List Nat) (s : ModuleState) : Except Failure ModuleState :=
  let urcId := urcIdOf urc
  if urcId = bstr "CSCON" then .ok (updateConnectionStatus s urc)
  else if urcId = bstr "CEREG" then updateEpsRegStatus s urc
  else if urcId = bstr "CGPADDR" then .ok (updateIpAddress s urc)
  else if urcId = bstr "NSONMI" then addAvailableMessage s urc
  else if urcId = bstr "CGDCONT" then updateApn s urc
  else if urcId = bstr "CGSN" then updateImei s urc
  else if urcId = bstr "CCID" then updateIccid s urc
  else if urcId = bstr "CME ERROR" then .error (.cmeError urc)
  else .ok s

/-- One iteration of the `_read_line_until_contains` classification chain on
an already line-ending-stripped line: returns the updated state and the
items appended to `irc_list` (the notification when capture is on, a plain
response line always). -/
def lineStep (capture : Bool) (s : ModuleState) (line : List Nat) :
    Except Failure (ModuleState × List (List Nat)) :=
  if startsWithB (bstr "+") line then
    match processUrc line s with
    | .ok s2 => .ok (s2, if capture then [line] else [])
    | .error f => .error f
  else if line = bstr "OK" then .ok (s, [])
  else if startsWithB (bstr "ERROR") line then .error (.atError line)
  else if line = [] then .ok (s, [])
  else .ok (s, [line])

/-- Result of one `_read_line_until_contains` wait: final state, serial
lines not yet consumed, collected `irc_list`, and the line on which the
loop broke (the line containing the slice). -/
structure ReadRes where
  state : ModuleState
  rest : List (List Nat)
  irc : List (List Nat)
  term : List Nat
  deriving Repr, DecidableEq

/-- `SaraN211Module._read_line_until_contains`: classify each line (which
dispatches notifications and raises on an `ERROR` terminator), then break
as soon as the line contains `slice`; running out of serial input models
exceeding the wall-clock timeout (`ATTimeoutError`). -/
def readUntilCore (slice : List Nat) (capture : Bool) :
    ModuleState → List (List Nat) → Except Failure ReadRes
  | _, [] => .error .timeout
  | s, data :: restIn =>
    match lineStep capture s (removeLineEnding data) with
    | .error f => .error f
    | .ok (s2, add) =>
      if hasSub slice (removeLineEnding data) then
        .ok ⟨s2, restIn, add, removeLineEnding data⟩
      else
        match readUntilCore slice capture s2 restIn with
        | .error f => .error f
        | .ok r => .ok ⟨r.state, r.rest, add ++ r.irc, r.term⟩

/-- Executor state threaded through the embedded operations: module state,
serial lines still to be read, and the log of commands written so far. -/
structure ExecSt where
  ms : ModuleState
  input : List (List Nat)
  sent : List (List Nat)
  deriving Repr, DecidableEq

/-- `_read_line_until_contains` at the executor level: returns the new
executor state, the collected `irc_list`, and the terminating line. -/
def readUntil (slice : List Nat) (capture : Bool) (e : ExecSt) :
    Except Failure (ExecSt × List (List Nat) × List Nat) :=
  match readUntilCore slice capture e.ms e.input with
  | .error f => .error f
  | .ok r => .ok (⟨r.state, r.rest, e.sent⟩, r.irc, r.term)

/-- `SaraN211Module._at_action`: write the command, then read lines until
one contains `OK`, returning the collected `irc_list`. -/
def atAction (cmd : List Nat) (capture : Bool) (e : ExecSt) :
    Except Failure (ExecSt × List (List Nat)) :=
  match readUntil (bstr "OK") capture ⟨e.ms, e.input, e.sent ++ [cmd]⟩ with
  | .error f => .error f
  | .ok (e2, irc, _) => .ok (e2, irc)

/-- `SaraN211Module._parse_udp_response`: remove all double quotes, split on
commas into exactly six fields (else the unpacking raises), and decode the
fifth field from hex. -/
def parseUdpResponse (message : List Nat) : Option (List Nat) :=
  match splitOnByte 44 (message.filter fun b => b != 34) with
  | [_, _, _, _, d, _] => fromhexBytes d
  | _ => none

/-- `SaraN211Module.send_udp_data`: hex-encode the payload upper-case and
issue the `AT+NSOST` command carrying socket id, quoted host, port, byte
length and quoted hex payload. -/
def sendUdpData (e : ExecSt) (socket : Nat) (host : List Nat) (port : Nat)
    (data : List Nat) : Except Failure (ExecSt × List (List Nat)) :=
  let hexData := hexlifyUpper data
  let atc := bstr "AT+NSOST=" ++ natToDec socket ++ bstr ",\"" ++ host ++
    bstr "\"," ++ natToDec port ++ bstr "," ++ natToDec data.length ++
    bstr ",\"" ++ hexData ++ bstr "\""
  atAction atc false e

/-- `SaraN211Module.receive_udp_data`: always wait for a line containing
`+NSONMI` first, then `pop(0)` the oldest queued descriptor (`IndexError`
when the queue is empty), fetch it with `AT+NSORF=<descriptor>`, and parse
the first response line. -/
def receiveUdpData (e : ExecSt) : Except Failure (ExecSt × List Nat) :=
  match readUntil (bstr "+NSONMI") false e with
  | .error f => .error f
  | .ok (e1, _, _) =>
    match e1.ms.availableMessages with
    | [] => .error .pyError
    | m :: rest =>
      match atAction (bstr "AT+NSORF=" ++ m) false
          ⟨{ e1.ms with availableMessages := rest }, e1.input, e1.sent⟩ with
      | .error f => .error f
      | .ok (e3, irc) =>
        match irc with
        | [] => .error .pyError
        | first :: _ =>
          match parseUdpResponse first with
          | some d => .ok (e3, d)
          | none => .error .pyError

/-- `_search_urc_result`: first captured item that starts with `urc_id`. -/
def searchUrcResult (urcId : List Nat) (items : List (List Nat)) :
    Option (List Nat) :=
  items.find? (startsWithB urcId)

/-- The `err_map` dictionary of `ping`, with its `.get` default. -/
def errMap (cause : Nat) : String :=
  if cause = 1 then "No response from remote host"
  else if cause = 2 then "Failed to send ping request"
  else "Error during ping"

/-- Lines 317-332 of `ping`: search the captured lines for `+NPINGERR:`
first, map the digit spelled by the final byte of the right-stripped error
line through `err_map` and raise `PingError`; otherwise search for
`+NPING:`, split it on commas and return the fields at positions 1 and 2;
with neither found, return nothing. -/
def pingProcess (irc : List (List Nat)) :
    Except Failure (Option (List Nat × List Nat)) :=
  match searchUrcResult (bstr "+NPINGERR:") irc with
  | some err =>
    match (rstripB err).getLast? with
    | some b =>
      if 48 ≤ b ∧ b ≤ 57 then .error (.pingError (errMap (b - 48)))
      else .error .pyError
    | none => .error .pyError
  | none =>
    match searchUrcResult (bstr "+NPING:") irc with
    | some pr =>
      match (splitOnByte 44 pr).get? 1, (splitOnByte 44 pr).get? 2 with
      | some a, some b => .ok (some (a, b))
      | _, _ => .error .pyError
    | none => .ok none

/-- `SaraN211Module.ping`: issue `AT+NPING="<ip>"`, wait capturing
notifications until a line contains `+NPING`, then process the captured
lines. -/
def pingModel (ip : List Nat) (e : ExecSt) :
    Except Failure (ExecSt × Option (List Nat × List Nat)) :=
  match atAction (bstr "AT+NPING=" ++ [34] ++ ip ++ [34]) false e with
  | .error f => .error f
  | .ok (e1, _) =>
    match readUntil (bstr "+NPING") true e1 with
    | .error f => .error f
    | .ok (e2, irc, _) =>
      match pingProcess irc with
      | .error f => .error f
      | .ok res => .ok (e2, res)

/-- `SaraN211Module.reboot`: issue `AT+NRB`, flush the serial buffers
(modelled as discarding the unread input), then `_reset_after_reboot`. -/
def rebootModel (e : ExecSt) : Except Failure ExecSt :=
  match atAction (bstr "AT+NRB") false e with
  | .error f => .error f
  | .ok (e1, _) => .ok ⟨resetAfterReboot e1.ms, [], e1.sent⟩

/-- `SaraN211Module.read_module_status`: the four status queries, then,
when registered, read the IMSI from the first `AT+CIMI` response line and
query the ICCID. -/
def readModuleStatus (e : ExecSt) : Except Failure ExecSt :=
  match atAction (bstr "AT+CGPADDR") false e with
  | .error f => .error f
  | .ok (e1, _) =>
  match atAction (bstr "AT+CGDCONT?") false e1 with
  | .error f => .error f
  | .ok (e2, _) =>
  match atAction (bstr "AT+CEREG?") false e2 with
  | .error f => .error f
  | .ok (e3, _) =>
  match atAction (bstr "AT+CGSN=1") false e3 with
  | .error f => .error f
  | .ok (e4, _) =>
    if registered e4.ms then
      match atAction (bstr "AT+CIMI") false e4 with
      | .error f => .error f
      | .ok (e5, irc) =>
        match irc with
        | [] => .error .pyError
        | first :: _ =>
          match atAction (bstr "AT+CCID") false
              ⟨{ e5.ms with imsi := some first }, e5.input, e5.sent⟩ with
          | .error f => .error f
          | .ok (e6, _) => .ok e6
    else .ok e4

/-- `SaraN211Module.connect`: a no-op when already registered; otherwise
issue the operator-selection command (`operator` is the rendered operator
text, `none` or empty being falsy), wait for the expected `CEREG` code
(`_await_connection` with `roaming or self.roaming`), then refresh the
module status. -/
def connectModel (e : ExecSt) (operator : Option (List Nat)) (roaming : Bool) :
    Except Failure ExecSt :=
  if registered e.ms then .ok e
  else
    let cmd := match operator with
      | some op =>
        if op = [] then bstr "AT+COPS=0"
        else bstr "AT+COPS=1,2," ++ [34] ++ op ++ [34]
      | none => bstr "AT+COPS=0"
    match atAction cmd false e with
    | .error f => .error f
    | .ok (e1, _) =>
      let slice :=
        if roaming || e1.ms.roaming then bstr "CEREG: 5" else bstr "CEREG: 1"
      match readUntil slice false e1 with
      | .error f => .error f
      | .ok (e2, _, _) => readModuleStatus e2

/-- A receive response (`AT+NSORF` answer line) whose payload field is the
upper-case hex encoding `send_udp_data` produces for `p`: socket id 0, host
`192.168.5.1`, port 1024, the true byte length, and no remaining bytes. -/
def udpResponseWith (p : List Nat) : List Nat :=
  bstr "0" ++ [44] ++ [34] ++ bstr "192.168.5.1" ++ [34] ++ [44] ++
    bstr "1024" ++ [44] ++ natToDec p.length ++ [44] ++ [34] ++
    hexlifyUpper p ++ [34] ++ [44] ++ bstr "0"

/-- Initial module state with roaming and echo off, used by the concrete
scenarios below. -/
def ms0 : ModuleState := initState false false

theorem startsWithB_self_append (xs ys : List Nat) :
    startsWithB xs (xs ++ ys) = true := by
  induction xs with
  | nil => rfl
  | cons a as ih => simp [startsWithB, ih]

theorem splitOnByte_no_sep (c : Nat) (l : List Nat) (h : ∀ x ∈ l, x ≠ c) :
    splitOnByte c l = [l] := by
  induction l with
  | nil => rfl
  | cons b rest ih =>
    have hb : b ≠ c := h b (by simp)
    rw [splitOnByte, if_neg (by simpa using hb),
      ih fun x hx => h x (by simp [hx])]

theorem splitOnByte_append (c : Nat) (xs l hd : List Nat)
    (tl : List (List Nat)) (hsplit : splitOnByte c l = hd :: tl)
    (hxs : ∀ x ∈ xs, x ≠ c) :
    splitOnByte c (xs ++ l) = (xs ++ hd) :: tl := by
  induction xs with
  | nil => simpa using hsplit
  | cons b rest ih =>
    have hb : b ≠ c := hxs b (by simp)
    have ih2 := ih fun x hx => hxs x (by simp [hx])
    rw [List.cons_append, splitOnByte, if_neg (by simpa using hb), ih2]
    rfl

theorem splitOnByte_field (c : Nat) (xs l : List Nat) (r : List (List Nat))
    (hsplit : splitOnByte c l = r) (hxs : ∀ x ∈ xs, x ≠ c) :
    splitOnByte c (xs ++ c :: l) = xs :: r := by
  have h1 : splitOnByte c (c :: l) = [] :: r := by
    rw [splitOnByte, if_pos (by simp), hsplit]
  simpa using splitOnByte_append c xs (c :: l) [] r h1 hxs

theorem natToDecAux_mem (fuel n x : Nat) (h : x ∈ natToDecAux fuel n) :
    48 ≤ x ∧ x ≤ 57 := by
  induction fuel generalizing n with
  | zero => simp [natToDecAux] at h
  | succ fuel ih =>
    rw [natToDecAux] at h
    by_cases hn : n < 10
    · rw [if_pos hn] at h
      simp at h
      omega
    · rw [if_neg hn] at h
      rcases List.mem_append.mp h with h1 | h1
      · exact ih _ h1
      · have : x = 48 + n % 10 := by simpa using h1
        omega

theorem hexUpperDigit_ge (n : Nat) : 48 ≤ hexUpperDigit n := by
  unfold hexUpperDigit
  split <;> omega

theorem hexlifyUpper_cons (b : Nat) (p : List Nat) :
    hexlifyUpper (b :: p) =
      hexUpperDigit (b / 16) :: hexUpperDigit (b % 16) :: hexlifyUpper p := by
  simp [hexlifyUpper]

theorem hexlifyUpper_mem (p : List Nat) (x : Nat) (h : x ∈ hexlifyUpper p) :
    48 ≤ x := by
  induction p with
  | nil => simp [hexlifyUpper] at h
  | cons b rest ih =>
    rw [hexlifyUpper_cons] at h
    simp only [List.mem_cons] at h
    rcases h with rfl | rfl | h
    · exact hexUpperDigit_ge _
    · exact hexUpperDigit_ge _
    · exact ih h

theorem hexDigitVal_hexUpperDigit (n : Nat) (h : n < 16) :
    hexDigitVal (hexUpperDigit n) = some n := by
  by_cases hn : n < 10
  · rw [hexUpperDigit, if_pos hn, hexDigitVal, if_pos (by omega)]
    congr 1
    omega
  · rw [hexUpperDigit, if_neg hn, hexDigitVal, if_neg (by omega),
      if_pos (by omega)]
    congr 1
    omega

theorem fromhex_hexlify (p : List Nat) (h : ∀ b ∈ p, b < 256) :
    fromhexBytes (hexlifyUpper p) = some p := by
  induction p with
  | nil => rfl
  | cons b rest ih =>
    have hb : b < 256 := h b (by simp)
    have e1 : hexDigitVal (hexUpperDigit (b / 16)) = some (b / 16) :=
      hexDigitVal_hexUpperDigit _ (by omega)
    have e2 : hexDigitVal (hexUpperDigit (b % 16)) = some (b % 16) :=
      hexDigitVal_hexUpperDigit _ (by omega)
    have e3 : fromhexBytes (hexlifyUpper rest) = some rest :=
      ih fun x hx => h x (by simp [hx])
    have hne : (hexUpperDigit (b / 16) == 32) = false := by
      have := hexUpperDigit_ge (b / 16)
      simp only [beq_eq_false_iff_ne, ne_eq]
      omega
    rw [hexlifyUpper_cons, fromhexBytes, hne]
    simp only [Bool.false_eq_true, if_false, e1, e2, e3]
    have : b / 16 * 16 + b % 16 = b := by omega
    rw [this]

theorem readUntilCore_term (slice : List Nat) (capture : Bool)
    (input : List (List Nat)) :
    ∀ (s : ModuleState) (r : ReadRes),
      readUntilCore slice capture s input = .ok r →
      hasSub slice r.term = true := by
  induction input with
  | nil =>
    intro s r h
    simp [readUntilCore] at h
  | cons d restIn ih =>
    intro s r h
    rw [readUntilCore] at h
    split at h
    · exact absurd h (by simp)
    · split at h
      · rename_i hc
        cases h
        exact hc
      · split at h
        · exact absurd h (by simp)
        · rename_i r2 heq2
          cases h
          exact ih _ r2 heq2

theorem readUntil_sent (slice : List Nat) (capture : Bool) (e e2 : ExecSt)
    (irc : List (List Nat)) (t : List Nat)
    (h : readUntil slice capture e = .ok (e2, irc, t)) : e2.sent = e.sent := by
  rw [readUntil] at h
  cases hc : readUntilCore slice capture e.ms e.input with
  | error f => rw [hc] at h; exact absurd h (by simp)
  | ok r =>
    rw [hc] at h
    cases h
    rfl

theorem readUntil_term (slice : List Nat) (capture : Bool) (e e2 : ExecSt)
    (irc : List (List Nat)) (t : List Nat)
    (h : readUntil slice capture e = .ok (e2, irc, t)) :
    hasSub slice t = true := by
  rw [readUntil] at h
  cases hc : readUntilCore slice capture e.ms e.input with
  | error f => rw [hc] at h; exact absurd h (by simp)
  | ok r =>
    rw [hc] at h
    cases h
    exact readUntilCore_term slice capture e.input e.ms r hc

theorem atAction_sent (cmd : List Nat) (capture : Bool) (e e2 : ExecSt)
    (irc : List (List Nat)) (h : atAction cmd capture e = .ok (e2, irc)) :
    e2.sent = e.sent ++ [cmd] := by
  rw [atAction] at h
  cases hc : readUntil (bstr "OK") capture ⟨e.ms, e.input, e.sent ++ [cmd]⟩ with
  | error f => rw [hc] at h; exact absurd h (by simp)
  | ok p =>
    rw [hc] at h
    obtain ⟨e3, irc2, t⟩ := p
    cases h
    exact readUntil_sent _ _ _ _ _ _ hc

theorem rstripB_concat (l : List Nat) (c : Nat) (h : isWsp c = false) :
    rstripB (l ++ [c]) = l ++ [c] := by
  rw [rstripB, List.reverse_append]
  simp [List.dropWhile_cons, h]

theorem pingProcess_err (irc : List (List Nat)) (err : List Nat) (d : Nat)
    (h1 : searchUrcResult (bstr "+NPINGERR:") irc = some err)
    (h2 : (rstripB err).getLast? = some (48 + d)) (hd : d ≤ 9) :
    pingProcess irc = .error (.pingError (errMap d)) := by
  simp only [pingProcess, h1, h2]
  rw [if_pos (by omega)]
  have hsub : 48 + d - 48 = d := by omega
  rw [hsub]

/-- Claim C1, counterexample: the wait started by `ping` with slice
`+NPING` terminates on the line `+NPING: 1,2,3`, which is classified as a
notification (it starts with `+`) and is neither the success terminator
`OK` nor an error terminator, refuting that only a success or error
terminator ends the read loop. -/
theorem c1_cex :
    readUntil (bstr "+NPING") true ⟨ms0, [bstr "+NPING: 1,2,3"], []⟩
      = .ok (⟨ms0, [], []⟩, [bstr "+NPING: 1,2,3"], bstr "+NPING: 1,2,3") ∧
    startsWithB (bstr "+") (bstr "+NPING: 1,2,3") = true ∧
    bstr "+NPING: 1,2,3" ≠ bstr "OK" ∧
    startsWithB (bstr "ERROR") (bstr "+NPING: 1,2,3") = false := by
  refine ⟨by decide, by decide, by decide, by decide⟩

/-- Claim C1, amended: classification (with URC dispatch) precedes the
termination check, but the wait terminates on any line containing the
target slice — so a notification line containing the slice is itself the
terminating line.  The terminating line of every successful wait contains
the slice, and in the concrete `+CSCON: 1` run the URC handler has already
updated the state when the wait ends on that very notification line. -/
theorem c1_amended :
    (∀ (slice : List Nat) (capture : Bool) (e : ExecSt)
        (out : ExecSt × List (List Nat) × List Nat),
        readUntil slice capture e = .ok out → hasSub slice out.2.2 = true) ∧
    readUntil (bstr "+CSCON") false ⟨ms0, [bstr "+CSCON: 1"], []⟩
      = .ok (⟨{ ms0 with connected := true }, [], []⟩, [], bstr "+CSCON: 1") ∧
    startsWithB (bstr "+") (bstr "+CSCON: 1") = true := by
  refine ⟨?_, by decide, by decide⟩
  intro slice capture e out h
  obtain ⟨e2, irc, t⟩ := out
  exact readUntil_term slice capture e e2 irc t h

/-- Claim C1, witness for the amended theorem at a concrete input. -/
theorem c1_witness : hasSub (bstr "OK") (bstr "OK") = true :=
  c1_amended.1 (bstr "OK") false ⟨ms0, [bstr "OK"], []⟩
    (⟨ms0, [], []⟩, [], bstr "OK") (by decide)

/-- Claim C2, counterexample: on the success notification
`+NPING: 192.168.2.1,55,1200` the ping returns the pair
`("55", "1200")`, i.e. the 2nd and 3rd comma-separated fields in that
order, not the 3rd and 2nd as claimed — and those two fields differ. -/
theorem c2_cex :
    pingModel (bstr "192.168.2.1")
        ⟨ms0, [bstr "OK", bstr "+NPING: 192.168.2.1,55,1200"], []⟩
      = .ok (⟨ms0, [],
          [bstr "AT+NPING=" ++ [34] ++ bstr "192.168.2.1" ++ [34]]⟩,
          some (bstr "55", bstr "1200")) ∧
    splitOnByte 44 (bstr "+NPING: 192.168.2.1,55,1200")
      = [bstr "+NPING: 192.168.2.1", bstr "55", bstr "1200"] ∧
    bstr "55" ≠ bstr "1200" := by
  refine ⟨by decide, by decide, by decide⟩

/-- Claim C2, amended: with a success-result notification found and no
error-result notification, ping splits the success notification on commas
and returns the pair (time-to-live, round-trip-time) as the 2nd and 3rd
comma-separated fields respectively. -/
theorem c2_amended (irc : List (List Nat)) (pr f0 f1 f2 : List Nat)
    (rest : List (List Nat))
    (hne : searchUrcResult (bstr "+NPINGERR:") irc = none)
    (hok : searchUrcResult (bstr "+NPING:") irc = some pr)
    (hsplit : splitOnByte 44 pr = f0 :: f1 :: f2 :: rest) :
    pingProcess irc = .ok (some (f1, f2)) := by
  simp only [pingProcess, hne, hok, hsplit]
  rfl

/-- Claim C2, witness for the amended theorem at a concrete input. -/
theorem c2_witness :
    pingProcess [bstr "+NPING: 192.168.2.1,55,1200"]
      = .ok (some (bstr "55", bstr "1200")) :=
  c2_amended [bstr "+NPING: 192.168.2.1,55,1200"]
    (bstr "+NPING: 192.168.2.1,55,1200") (bstr "+NPING: 192.168.2.1")
    (bstr "55") (bstr "1200") [] (by decide) (by decide) (by decide)

/-- Claim C3 (code bug): the dispatcher evaluates the truthiness of the
final byte value of the `+CSCON` line rather than of the digit it spells,
so `+CSCON: 0` (final byte 48) sets the connection status to true, against
the handler's own documentation and the claim; `+CSCON: 1` does yield
true. -/
theorem c3_thm :
    processUrc (bstr "+CSCON: 0") ms0 = .ok { ms0 with connected := true } ∧
    processUrc (bstr "+CSCON: 1") ms0 = .ok { ms0 with connected := true } ∧
    (bstr "+CSCON: 0").getLastD 0 = 48 ∧ ms0.connected = false := by
  refine ⟨by decide, by decide, by decide, by decide⟩

/-- Claim C4, counterexample: a `+CGSN` notification sets the IMEI; a
subsequent reboot leaves the IMEI set, so not every Module State field is
back at its default (the IMEI default is `none`). -/
theorem c4_cex :
    processUrc (bstr "+CGSN: 490154203237518") ms0
      = .ok { ms0 with imei := some (bstr "490154203237518") } ∧
    rebootModel
        ⟨{ ms0 with imei := some (bstr "490154203237518") }, [bstr "OK"], []⟩
      = .ok ⟨{ ms0 with imei := some (bstr "490154203237518") }, [],
          [bstr "AT+NRB"]⟩ ∧
    ms0.imei = none := by
  refine ⟨by decide, by decide, by decide⟩

/-- Claim C4, amended: after `reboot()` the registration status, connection
status, IP, socket table and pending-message queue are back at their
defaults, while the identity fields (IMEI, IMSI, ICCID), the APN and all
radio-statistics fields keep the values they had after the reboot command's
wait. -/
theorem c4_amended (e e1 : ExecSt) (irc : List (List Nat))
    (h : atAction (bstr "AT+NRB") false e = .ok (e1, irc)) :
    rebootModel e = .ok ⟨resetAfterReboot e1.ms, [], e1.sent⟩ ∧
    (resetAfterReboot e1.ms).registrationStatus = 0 ∧
    (resetAfterReboot e1.ms).connected = false ∧
    (resetAfterReboot e1.ms).ip = none ∧
    (resetAfterReboot e1.ms).sockets = [] ∧
    (resetAfterReboot e1.ms).availableMessages = [] ∧
    (resetAfterReboot e1.ms).imei = e1.ms.imei ∧
    (resetAfterReboot e1.ms).imsi = e1.ms.imsi ∧
    (resetAfterReboot e1.ms).iccid = e1.ms.iccid ∧
    (resetAfterReboot e1.ms).apn = e1.ms.apn ∧
    (resetAfterReboot e1.ms).radioSignalPower = e1.ms.radioSignalPower ∧
    (resetAfterReboot e1.ms).radioTotalPower = e1.ms.radioTotalPower ∧
    (resetAfterReboot e1.ms).radioTxPower = e1.ms.radioTxPower ∧
    (resetAfterReboot e1.ms).radioTxTime = e1.ms.radioTxTime ∧
    (resetAfterReboot e1.ms).radioRxTime = e1.ms.radioRxTime ∧
    (resetAfterReboot e1.ms).radioCellId = e1.ms.radioCellId ∧
    (resetAfterReboot e1.ms).radioEcl = e1.ms.radioEcl ∧
    (resetAfterReboot e1.ms).radioSnr = e1.ms.radioSnr ∧
    (resetAfterReboot e1.ms).radioEarfcn = e1.ms.radioEarfcn ∧
    (resetAfterReboot e1.ms).radioPci = e1.ms.radioPci ∧
    (resetAfterReboot e1.ms).radioRsrq = e1.ms.radioRsrq ∧
    (resetAfterReboot e1.ms).radioRsrp = e1.ms.radioRsrp := by
  constructor
  · rw [rebootModel, h]
  · simp [resetAfterReboot]

/-- Claim C4, witness for the amended theorem at a concrete input. -/
theorem c4_witness :
    rebootModel ⟨{ ms0 with imsi := some (bstr "240011234567890") },
        [bstr "OK"], []⟩
      = .ok ⟨resetAfterReboot { ms0 with imsi := some (bstr "240011234567890") },
          [], [bstr "AT+NRB"]⟩ :=
  (c4_amended ⟨{ ms0 with imsi := some (bstr "240011234567890") },
      [bstr "OK"], []⟩
    ⟨{ ms0 with imsi := some (bstr "240011234567890") }, [], [bstr "AT+NRB"]⟩
    [] (by decide)).1

/-- Claim C5, counterexample: with a non-empty pending-message queue and no
inbound-message notification arriving on the serial line, `receive` still
waits for a fresh `+NSONMI` notification and times out instead of serving
the queued descriptor. -/
theorem c5_cex :
    receiveUdpData ⟨{ ms0 with availableMessages := [bstr "0,4"] },
        [bstr "OK"], []⟩ = .error .timeout ∧
    ([bstr "0,4"] : List (List Nat)) ≠ [] := by
  refine ⟨by decide, by decide⟩

/-- Claim C5, amended: `receive` always first waits for a line containing
`+NSONMI` (even when the queue is already non-empty); it then pops the
oldest queued descriptor (FIFO) and issues the fetch command
`AT+NSORF=<descriptor>` referencing exactly that descriptor. -/
theorem c5_amended (e e1 : ExecSt) (irc : List (List Nat)) (t m : List Nat)
    (rest : List (List Nat)) (e3 : ExecSt) (irc2 : List (List Nat))
    (first : List Nat) (others : List (List Nat)) (d : List Nat)
    (h1 : readUntil (bstr "+NSONMI") false e = .ok (e1, irc, t))
    (h2 : e1.ms.availableMessages = m :: rest)
    (h3 : atAction (bstr "AT+NSORF=" ++ m) false
        ⟨{ e1.ms with availableMessages := rest }, e1.input, e1.sent⟩
      = .ok (e3, irc2))
    (h4 : irc2 = first :: others) (h5 : parseUdpResponse first = some d) :
    receiveUdpData e = .ok (e3, d) ∧
    e3.sent = e1.sent ++ [bstr "AT+NSORF=" ++ m] := by
  constructor
  · simp only [receiveUdpData, h1, h2, h3, h4, h5]
  · have hs := atAction_sent _ _ _ _ _ h3
    simpa using hs

/-- Claim C5, witness for the amended theorem at a concrete input. -/
theorem c5_witness :
    receiveUdpData ⟨ms0, [bstr "+NSONMI: 0,4",
        bstr "0,\"192.168.5.1\",1024,2,\"07FF\",0", bstr "OK"], []⟩
      = .ok (⟨ms0, [], [bstr "AT+NSORF=" ++ bstr "0,4"]⟩, [7, 255]) :=
  (c5_amended
    ⟨ms0, [bstr "+NSONMI: 0,4",
        bstr "0,\"192.168.5.1\",1024,2,\"07FF\",0", bstr "OK"], []⟩
    ⟨{ ms0 with availableMessages := [bstr "0,4"] },
        [bstr "0,\"192.168.5.1\",1024,2,\"07FF\",0", bstr "OK"], []⟩
    [] (bstr "+NSONMI: 0,4") (bstr "0,4") []
    ⟨ms0, [], [bstr "AT+NSORF=" ++ bstr "0,4"]⟩
    [bstr "0,\"192.168.5.1\",1024,2,\"07FF\",0"]
    (bstr "0,\"192.168.5.1\",1024,2,\"07FF\",0") [] [7, 255]
    (by decide) (by decide) (by decide) (by decide) (by decide)).1

/-- Claim C6 (confirmed): `registered` holds exactly when the stored
registration status equals the single code expected for the configured
roaming mode (5 when roaming, 1 when not); consequently a `+CEREG: 1`
notification makes `registered` true with roaming off and leaves it false
with roaming on. -/
theorem c6_thm :
    (∀ s : ModuleState,
        registered s = true ↔
          s.registrationStatus = (if s.roaming then 5 else 1)) ∧
    processUrc (bstr "+CEREG: 1") ms0
      = .ok { ms0 with registrationStatus := 1 } ∧
    registered { ms0 with registrationStatus := 1 } = true ∧
    processUrc (bstr "+CEREG: 1") (initState true false)
      = .ok { initState true false with registrationStatus := 1 } ∧
    registered { initState true false with registrationStatus := 1 }
      = false := by
  refine ⟨?_, by decide, by decide, by decide, by decide⟩
  intro s
  simp [registered]

/-- Claim C7 (confirmed): when `registered` already holds, `connect` issues
no network command and returns with the executor state — module state and
sent-command log — unchanged. -/
theorem c7_thm (e : ExecSt) (operator : Option (List Nat)) (roaming : Bool)
    (h : registered e.ms = true) : connectModel e operator roaming = .ok e := by
  rw [connectModel.eq_def, if_pos h]

/-- Claim C7, witness at a concrete registered state. -/
theorem c7_witness :
    connectModel ⟨{ ms0 with registrationStatus := 1 }, [], []⟩ none false
      = .ok ⟨{ ms0 with registrationStatus := 1 }, [], []⟩ :=
  c7_thm ⟨{ ms0 with registrationStatus := 1 }, [], []⟩ none false (by decide)

/-- Claim C8 (confirmed): the upper-case hex encoding `send` produces,
placed as the payload field of a receive response, is decoded by the
receive-response parser back to exactly the original byte sequence; the
underlying hex encode/decode round trip is the identity. -/
theorem c8_thm (p : List Nat) (h : ∀ b ∈ p, b < 256) :
    parseUdpResponse (udpResponseWith p) = some p ∧
    fromhexBytes (hexlifyUpper p) = some p := by
  have hhexmem : ∀ x ∈ hexlifyUpper p, x ≠ 44 := fun x hx => by
    have := hexlifyUpper_mem p x hx
    omega
  have hnatmem : ∀ x ∈ natToDec p.length, x ≠ 44 := fun x hx => by
    have := natToDecAux_mem _ _ _ hx
    omega
  have hnat34 : (natToDec p.length).filter (fun x => x != 34)
      = natToDec p.length := by
    rw [List.filter_eq_self]
    intro a ha
    have := natToDecAux_mem _ _ _ ha
    simp only [bne_iff_ne, ne_eq]
    omega
  have hhex34 : (hexlifyUpper p).filter (fun x => x != 34)
      = hexlifyUpper p := by
    rw [List.filter_eq_self]
    intro a ha
    have := hexlifyUpper_mem p a ha
    simp only [bne_iff_ne, ne_eq]
    omega
  have e0 : (bstr "0").filter (fun x => x != 34) = bstr "0" := by decide
  have eip : (bstr "192.168.5.1").filter (fun x => x != 34)
      = bstr "192.168.5.1" := by decide
  have e1024 : (bstr "1024").filter (fun x => x != 34) = bstr "1024" := by
    decide
  have f44 : ∀ l : List Nat, List.filter (fun x => x != 34) (44 :: l)
      = 44 :: List.filter (fun x => x != 34) l := fun l => by simp
  have f34 : ∀ l : List Nat, List.filter (fun x => x != 34) (34 :: l)
      = List.filter (fun x => x != 34) l := fun l => by simp
  have hfilter : (udpResponseWith p).filter (fun x => x != 34)
      = bstr "0" ++ 44 :: (bstr "192.168.5.1" ++ 44 :: (bstr "1024" ++
          44 :: (natToDec p.length ++ 44 :: (hexlifyUpper p ++
          44 :: bstr "0")))) := by
    simp only [udpResponseWith, List.filter_append, e0, eip, e1024, f44, f34,
      List.filter_nil, hnat34, hhex34, List.append_assoc, List.nil_append,
      List.append_nil, List.singleton_append, List.cons_append]
  have hsplit : splitOnByte 44 ((udpResponseWith p).filter (fun x => x != 34))
      = [bstr "0", bstr "192.168.5.1", bstr "1024", natToDec p.length,
          hexlifyUpper p, bstr "0"] := by
    rw [hfilter]
    refine splitOnByte_field 44 _ _ _ ?_ (by decide)
    refine splitOnByte_field 44 _ _ _ ?_ (by decide)
    refine splitOnByte_field 44 _ _ _ ?_ (by decide)
    refine splitOnByte_field 44 _ _ _ ?_ hnatmem
    refine splitOnByte_field 44 _ _ _ ?_ hhexmem
    exact splitOnByte_no_sep 44 _ (by decide)
  refine ⟨?_, fromhex_hexlify p h⟩
  simp only [parseUdpResponse, hsplit]
  exact fromhex_hexlify p h

/-- Claim C8, witness at a concrete payload. -/
theorem c8_witness :
    parseUdpResponse (udpResponseWith [7, 255]) = some [7, 255] :=
  (c8_thm [7, 255] (by decide)).1

/-- Claim C9, counterexample: the error notification `+NPINGERR: 1` makes
ping fail with the message `No response from remote host`, which is not
the claimed string `no response from remote host`. -/
theorem c9_cex :
    pingModel (bstr "192.168.2.1") ⟨ms0, [bstr "OK", bstr "+NPINGERR: 1"], []⟩
      = .error (.pingError "No response from remote host") ∧
    "No response from remote host" ≠ "no response from remote host" := by
  refine ⟨by decide, by decide⟩

/-- Claim C9, amended: when the captured lines contain an error-result
notification, ping fails with a `PingError` whose message is determined by
the digit spelled by the final byte of the right-stripped error line: `No
response from remote host` for cause 1, `Failed to send ping request` for
cause 2, and the generic `Error during ping` for any other cause. -/
theorem c9_amended :
    (∀ (irc : List (List Nat)) (err : List Nat) (d : Nat),
        searchUrcResult (bstr "+NPINGERR:") irc = some err →
        (rstripB err).getLast? = some (48 + d) → d ≤ 9 →
        pingProcess irc = .error (.pingError (errMap d))) ∧
    errMap 1 = "No response from remote host" ∧
    errMap 2 = "Failed to send ping request" ∧
    (∀ d : Nat, d ≠ 1 → d ≠ 2 → errMap d = "Error during ping") := by
  refine ⟨pingProcess_err, by decide, by decide, ?_⟩
  intro d h1 h2
  rw [errMap, if_neg h1, if_neg h2]

/-- Claim C9, witness for the amended theorem at a concrete input. -/
theorem c9_witness :
    pingProcess [bstr "+NPINGERR: 1"] = .error (.pingError (errMap 1)) :=
  c9_amended.1 [bstr "+NPINGERR: 1"] (bstr "+NPINGERR: 1") 1
    (by decide) (by decide) (by decide)

/-- Claim C10 (confirmed): the ping error cause is read from only the final
character of the stripped error notification, whatever precedes it; in
particular a reported cause of 12 is mapped to the message for cause 2. -/
theorem c10_thm :
    (∀ (p : List Nat) (d : Nat), d ≤ 9 →
        pingProcess [bstr "+NPINGERR: " ++ p ++ [48 + d]]
          = .error (.pingError (errMap d))) ∧
    pingProcess [bstr "+NPINGERR: 12"] = .error (.pingError (errMap 2)) ∧
    errMap 2 = "Failed to send ping request" := by
  refine ⟨?_, by decide, by decide⟩
  intro p d hd
  have hshape : bstr "+NPINGERR: " ++ p ++ [48 + d]
      = bstr "+NPINGERR:" ++ ([32] ++ (p ++ [48 + d])) := by
    have hb : bstr "+NPINGERR: " = bstr "+NPINGERR:" ++ [32] := by decide
    rw [hb, List.append_assoc, List.append_assoc]
  have hpre : startsWithB (bstr "+NPINGERR:")
      (bstr "+NPINGERR: " ++ p ++ [48 + d]) = true := by
    rw [hshape]
    exact startsWithB_self_append _ _
  have hsearch : searchUrcResult (bstr "+NPINGERR:")
      [bstr "+NPINGERR: " ++ p ++ [48 + d]]
      = some (bstr "+NPINGERR: " ++ p ++ [48 + d]) := by
    rw [searchUrcResult]
    exact List.find?_cons_of_pos _ hpre
  have hws : isWsp (48 + d) = false := by
    simp only [isWsp, Bool.or_eq_false_iff, Bool.and_eq_false_iff]
    constructor
    · simp only [beq_eq_false_iff_ne, ne_eq]
      omega
    · right
      simp only [decide_eq_false_iff_not, not_le]
      omega
  have hlast : (rstripB (bstr "+NPINGERR: " ++ p ++ [48 + d])).getLast?
      = some (48 + d) := by
    rw [rstripB_concat _ _ hws]
    exact List.getLast?_concat _
  exact pingProcess_err _ _ d hsearch hlast hd

/-- Claim C10, witness at a concrete two-digit cause. -/
theorem c10_witness :
    pingProcess [bstr "+NPINGERR: " ++ bstr "1" ++ [50]]
      = .error (.pingError (errMap 2)) :=
  c10_thm.1 (bstr "1") 2 (by decide)
